/-
  Verification of the contribution-scoring core of the OpenSource backend.

  Shallow embedding of:
  - backend/services/pr_state_machine.py       (PRState, PRStateMachine)
  - backend/services/scoring_engine.py         (ScoringEngine.apply_gaming_prevention)
  - backend/services/gaming_detector.py        (GamingDetector.detect_spam_pr)
  - backend/services/advanced_scoring_engine.py (AdvancedScoringEngine.calculate_score)
  - backend/services/point_ledger.py           (PointLedger)
  - backend/services/event_deduplicator.py     (EventDeduplicator.generate_fingerprint)
  - backend/services/rank_calculator.py        (RankCalculator)
  - backend/integrations/github/webhook_processor.py (WebhookProcessor.process_webhook)
  - backend/integrations/github/webhook_security.py  (verify_webhook_signature)

  Python `int` is modelled as ℤ, float arithmetic as exact rationals ℚ,
  `None`-able values as `Option`, raised exceptions as `Except`/`Option`
  failures, and Python truthiness checks (`if x:`) are translated explicitly
  (`None` and `0` are falsy).
-/
import Mathlib

namespace OpenSource

/-! ## PR state machine (backend/services/pr_state_machine.py) -/

/-- The `PRState` enum: the six valid PR lifecycle states. -/
inductive PRState where
  | OPEN
  | UNDER_REVIEW
  | CHANGES_REQUESTED
  | APPROVED
  | MERGED
  | CLOSED
deriving DecidableEq, Repr, Fintype

/-- The string value of each `PRState` enum member. -/
def PRState.str : PRState → String
  | .OPEN => "OPEN"
  | .UNDER_REVIEW => "UNDER_REVIEW"
  | .CHANGES_REQUESTED => "CHANGES_REQUESTED"
  | .APPROVED => "APPROVED"
  | .MERGED => "MERGED"
  | .CLOSED => "CLOSED"

/-- `PRState(s)` enum construction from a string: succeeds exactly on the six
member values, otherwise Python raises `ValueError` (modelled as `none`). -/
def PRState.ofString? : String → Option PRState
  | "OPEN" => some .OPEN
  | "UNDER_REVIEW" => some .UNDER_REVIEW
  | "CHANGES_REQUESTED" => some .CHANGES_REQUESTED
  | "APPROVED" => some .APPROVED
  | "MERGED" => some .MERGED
  | "CLOSED" => some .CLOSED
  | _ => none

/-- `PRStateMachine.VALID_TRANSITIONS`: the transition table from the source
(dict from state to the set of allowed successor states). -/
def VALID_TRANSITIONS : PRState → List PRState
  | .OPEN => [.UNDER_REVIEW, .CLOSED]
  | .UNDER_REVIEW => [.CHANGES_REQUESTED, .APPROVED, .CLOSED]
  | .CHANGES_REQUESTED => [.OPEN, .CLOSED]
  | .APPROVED => [.MERGED, .CLOSED]
  | .MERGED => []
  | .CLOSED => [.OPEN]

/-- `PRStateMachine.is_valid_transition(from_state, to_state)`: parse both
strings to enum members (a `ValueError` on either makes the function return
`False`); a same-state transition is always valid; otherwise consult the
transition table. -/
def is_valid_transition (from_state to_state : String) : Bool :=
  match PRState.ofString? from_state, PRState.ofString? to_state with
  | some from_enum, some to_enum =>
      if from_enum = to_enum then true
      else (VALID_TRANSITIONS from_enum).contains to_enum
  | _, _ => false

/-- `PRStateMachine.validate_transition(from_state, to_state, pr_id)`:
returns `(False, error_message)` when the transition is invalid, else
`(True, None)`. -/
def validate_transition (from_state to_state _pr_id : String) :
    Bool × Option String :=
  if is_valid_transition from_state to_state = false then
    (false, some ("Invalid state transition: " ++ from_state ++ " → " ++ to_state))
  else
    (true, none)

/-! ## Gaming prevention cap (backend/services/scoring_engine.py) -/

/-- `ScoringEngine.apply_gaming_prevention(user_id, repo_id, score, period_days)`.
The database query is modelled by passing the point values of the user's
transactions for this repository inside the trailing period directly;
`total_points_in_period` is their sum.  The cap is the source's hard-coded
`max_points_per_repo_per_month = 1000`. -/
def apply_gaming_prevention (period_txn_points : List ℤ) (score : ℤ) : ℤ :=
  let total_points_in_period := period_txn_points.sum
  let max_points_per_repo_per_month : ℤ := 1000
  if total_points_in_period ≥ max_points_per_repo_per_month then 0
  else
    let remaining_cap := max_points_per_repo_per_month - total_points_in_period
    min score remaining_cap

/-! ## Gaming detector (backend/services/gaming_detector.py) -/

/-- A review row as used by the scoring engine: only the numeric rating
matters here; `none` models a SQL `NULL` rating. -/
structure Review where
  rating : Option ℚ
deriving DecidableEq

/-- The pull-request row fields consulted by the gaming detector and the
advanced scoring engine. `diffSize` is nullable in the schema. -/
structure PullRequest where
  diffSize : Option ℤ
  reviews : List Review
deriving DecidableEq

/-- Result dict of `GamingDetector.detect_spam_pr`. -/
structure SpamResult where
  is_spam : Bool
  reason : Option String
deriving DecidableEq

/-- `GamingDetector.detect_spam_pr(pr_id)`: the DB lookup is modelled by the
`Option PullRequest` argument (`none` = PR not found).  The source guard is
`if pr.diffSize and pr.diffSize < 10:` — Python truthiness, so a `None` or
`0` diff size is falsy and never flagged. -/
def detect_spam_pr (pr : Option PullRequest) : SpamResult :=
  match pr with
  | none => ⟨false, none⟩
  | some pr =>
    match pr.diffSize with
    | some d =>
        if d ≠ 0 ∧ d < 10 then ⟨true, some "Very small diff size"⟩
        else ⟨false, none⟩
    | none => ⟨false, none⟩

/-! ## Advanced scoring engine (backend/services/advanced_scoring_engine.py) -/

/-- Python `int(x)` on a float/real: truncation toward zero. -/
def pyInt (q : ℚ) : ℤ := if q < 0 then ⌈q⌉ else ⌊q⌋

/-- A project scoring-rules dict.  `base_points` and `penalties` are
sub-dicts modelled as association lists (`.get` with a default collapses a
missing key and a missing sub-dict to the same behaviour);
`review_rating_multipliers` is `rules["multipliers"]["review_rating"]`,
`none` when absent so the source falls back to its inline default table. -/
structure ScoringRules where
  version : ℕ
  base_points : List (String × ℤ)
  review_rating_multipliers : Option (List (ℚ × ℚ))
  penalties : List (String × ℕ)
deriving DecidableEq

/-- `AdvancedScoringEngine._get_default_rules()`. -/
def default_rules : ScoringRules where
  version := 1
  base_points := [("opened", 10), ("merged", 50), ("closed", 0)]
  review_rating_multipliers :=
    some [(5, 3/2), (4, 6/5), (3, 1), (2, 4/5), (1, 1/2)]
  penalties := [("spam", 20), ("low_value", 10), ("violation", 50)]

/-- `AdvancedScoringEngine._get_base_score(event, rules)`:
`rules.get("base_points", {}).get(event, default_points.get(event, 0))`. -/
def get_base_score (event : String) (rules : ScoringRules) : ℤ :=
  let default_points : List (String × ℤ) := [("opened", 10), ("merged", 50), ("closed", 0)]
  ((rules.base_points.lookup event).getD ((default_points.lookup event).getD 0))

/-- Python `abs()` on a real value. -/
def pyAbs (q : ℚ) : ℚ := if q < 0 then -q else q

/-- Python `min(keys, key=lambda x: abs(x - avg))` over the rating table:
the first key (in insertion order) with minimal distance wins; `none` models
the `ValueError` Python raises on an empty sequence. -/
def closest_rating (avg : ℚ) : List (ℚ × ℚ) → Option (ℚ × ℚ)
  | [] => none
  | p :: ps =>
      some (ps.foldl (fun best q =>
        if pyAbs (q.1 - avg) < pyAbs (best.1 - avg) then q else best) p)

/-- `AdvancedScoringEngine._get_review_rating_multiplier(avg_rating, rules)`. -/
def get_review_rating_multiplier (avg_rating : ℚ) (rules : ScoringRules) : Option ℚ :=
  let rating_multipliers :=
    rules.review_rating_multipliers.getD [(5, 3/2), (4, 6/5), (3, 1), (2, 4/5), (1, 1/2)]
  (closest_rating avg_rating rating_multipliers).map (·.2)

/-- `AdvancedScoringEngine._calculate_multipliers(pr, rules)`, the three
multipliers in dict insertion order `(review_rating, test_coverage,
documentation)`.  The generator filters reviews by rating truthiness
(`if r.rating`), so `NULL` and `0` ratings are dropped; if the PR has
reviews but all ratings are falsy the source divides by zero
(`ZeroDivisionError`), and an empty multiplier table raises `ValueError`
inside `min` — both modelled as `Except.error`. -/
def calculate_multipliers (pr : PullRequest) (rules : ScoringRules) :
    Except String (ℚ × ℚ × ℚ) :=
  if pr.reviews = [] then .ok (1, 1, 1)
  else
    let rated := (pr.reviews.filterMap (·.rating)).filter (· ≠ 0)
    if rated = [] then .error "ZeroDivisionError: division by zero"
    else
      let avg_rating := rated.sum / (rated.length : ℚ)
      match get_review_rating_multiplier avg_rating rules with
      | none => .error "ValueError: min() arg is an empty sequence"
      | some m => .ok (m, 1, 1)

/-- `AdvancedScoringEngine._calculate_penalties(pr, rules)`, the three
penalties in dict insertion order `(spam, low_value, violation)`.  The spam
guard is again `if pr.diffSize and pr.diffSize < 10:` (truthiness). -/
def calculate_penalties (pr : PullRequest) (rules : ScoringRules) : ℕ × ℕ × ℕ :=
  let spam :=
    match pr.diffSize with
    | some d => if d ≠ 0 ∧ d < 10 then (rules.penalties.lookup "spam").getD 20 else 0
    | none => 0
  (spam, 0, 0)

/-- The breakdown dict returned by `AdvancedScoringEngine.calculate_score`. -/
structure ScoreBreakdown where
  base_score : ℤ
  mult_review_rating : ℚ
  mult_test_coverage : ℚ
  mult_documentation : ℚ
  pen_spam : ℕ
  pen_low_value : ℕ
  pen_violation : ℕ
  final_score : ℤ
  event : String
  rules_version : ℕ
deriving DecidableEq

/-- `AdvancedScoringEngine.calculate_score(pr_id, event, scoring_rules)`:
the DB lookup is the `Option PullRequest` argument (`none` = `ValueError`,
PR not found); `scoring_rules or self._get_default_rules()` is the `getD`.
`final_score = max(0, int((base_score * multiplier_product) - penalty_sum))`. -/
def calculate_score (pr : Option PullRequest) (event : String)
    (scoring_rules : Option ScoringRules) : Except String ScoreBreakdown :=
  match pr with
  | none => .error "PR not found"
  | some pr =>
    let rules := scoring_rules.getD default_rules
    let base_score := get_base_score event rules
    match calculate_multipliers pr rules with
    | .error e => .error e
    | .ok (m_review, m_test, m_docs) =>
      let (p_spam, p_low, p_viol) := calculate_penalties pr rules
      let multiplier_product : ℚ := 1 * m_review * m_test * m_docs
      let penalty_sum : ℤ := (p_spam : ℤ) + p_low + p_viol
      let final_score := max 0 (pyInt ((base_score : ℚ) * multiplier_product - (penalty_sum : ℚ)))
      .ok {
        base_score := base_score
        mult_review_rating := m_review
        mult_test_coverage := m_test
        mult_documentation := m_docs
        pen_spam := p_spam
        pen_low_value := p_low
        pen_violation := p_viol
        final_score := final_score
        event := event
        rules_version := rules.version
      }

/-! ## Point ledger (backend/services/point_ledger.py) -/

/-- A `PointTransaction` row.  Its id is its (monotonic) index in the
append-only transaction list. -/
structure PointTxn where
  userId : String
  pullRequestId : String
  points : ℤ
  reason : String
  transactionType : String
deriving DecidableEq

/-- The ledger-visible database state: the append-only `pointtransaction`
table and the `user` table restricted to its cached `totalPoints` column
(an association list from user id to balance). -/
structure LedgerState where
  transactions : List PointTxn
  users : List (String × ℤ)
deriving DecidableEq

/-- `transaction.user.update(where id, data totalPoints increment)`: adds
`delta` to the first matching user's cached balance; `none` models the
update raising on a missing record (which rolls the transaction back). -/
def updateUserPoints : List (String × ℤ) → String → ℤ → Option (List (String × ℤ))
  | [], _, _ => none
  | (u, t) :: rest, uid, delta =>
      if u = uid then some ((u, t + delta) :: rest)
      else
        match updateUserPoints rest uid delta with
        | none => none
        | some rest2 => some ((u, t) :: rest2)

/-- `PointLedger.award_points(user_id, pr_id, points, reason,
transaction_type, metadata)`: inside one database transaction, append a
`PointTransaction` and increment the user's `totalPoints`.  Both effects
commit together or neither does (`none` = rollback). -/
def award_points (s : LedgerState) (user_id pr_id : String) (points : ℤ)
    (reason : String) (transaction_type : String) : Option LedgerState :=
  match updateUserPoints s.users user_id points with
  | none => none
  | some users2 =>
      some { transactions := s.transactions ++
               [⟨user_id, pr_id, points, reason, transaction_type⟩],
             users := users2 }

/-- `PointLedger.create_reversal(user_id, pr_id, original_transaction_id,
reason)`: look up the original transaction (`ValueError` when absent,
modelled as `none`) and award its negated points as a `REVERSAL`. -/
def create_reversal (s : LedgerState) (user_id pr_id : String)
    (original_transaction_id : ℕ) (reason : String) : Option LedgerState :=
  match s.transactions.get? original_transaction_id with
  | none => none
  | some original =>
      award_points s user_id pr_id (-original.points) reason "REVERSAL"

/-- `PointLedger.verify_ledger_integrity(user_id)`: recompute the balance
by summing all of the user's transactions and compare with the cached
`totalPoints`; `False` when the user does not exist. -/
def verify_ledger_integrity (s : LedgerState) (user_id : String) : Bool :=
  match s.users.lookup user_id with
  | none => false
  | some stored_total =>
      ((s.transactions.filter (fun t => t.userId = user_id)).map (·.points)).sum
        = stored_total

/-- One ledger operation: an `award_points` call or a `create_reversal`
call with its arguments. -/
inductive LedgerOp where
  | award (user_id pr_id : String) (points : ℤ) (reason transaction_type : String)
  | reversal (user_id pr_id : String) (original_transaction_id : ℕ) (reason : String)
deriving DecidableEq

/-- Run one ledger operation; a failed (raising) operation leaves the
database unchanged because the enclosing transaction rolls back. -/
def applyLedgerOp (s : LedgerState) : LedgerOp → LedgerState
  | .award uid prid pts reason ttype =>
      (award_points s uid prid pts reason ttype).getD s
  | .reversal uid prid origId reason =>
      (create_reversal s uid prid origId reason).getD s

/-- Run a finite sequence of ledger operations. -/
def applyLedgerOps (s : LedgerState) (ops : List LedgerOp) : LedgerState :=
  ops.foldl applyLedgerOp s

/-! ## Webhook processor (backend/integrations/github/webhook_processor.py) -/

/-- The `payload["repository"]` sub-object, restricted to the field read by
the processor. -/
structure RepoData where
  id : Option ℤ
deriving DecidableEq

/-- A webhook payload restricted to the fields the processor itself reads
(`payload.get("action")`, `payload.get("repository", {})`). -/
structure WebhookPayload where
  action : Option String
  repository : Option RepoData
deriving DecidableEq

/-- A `webhookdelivery` row. -/
structure WebhookDeliveryRow where
  deliveryId : String
  eventType : String
  action : Option String
  repositoryId : Option String
  payload : WebhookPayload
  processed : Bool
  processedAt : Option ℕ
  failureCount : ℤ
  lastError : Option String
deriving DecidableEq

/-- The state `process_webhook` acts on: the `webhookdelivery` table keyed
by `deliveryId`, plus the rest of the world (`W`) — PR rows, the point
ledger, user balances — touched only through the event handler. -/
structure ProcessorState (W : Type) where
  deliveries : List (String × WebhookDeliveryRow)
  world : W
deriving DecidableEq

/-- Result dicts returned by `process_webhook`. -/
inductive WebhookResult where
  | already_processed (delivery_id : String)
  | no_handler (event_type : String)
  | processed (delivery_id : String)
  | failed (error : String)
deriving DecidableEq

/-- Update the delivery row with the given id in place. -/
def updateDelivery (ds : List (String × WebhookDeliveryRow)) (delivery_id : String)
    (f : WebhookDeliveryRow → WebhookDeliveryRow) : List (String × WebhookDeliveryRow) :=
  ds.map (fun p => if p.1 = delivery_id then (p.1, f p.2) else p)

/-- `WebhookProcessor._mark_processed(delivery_id, error)`. -/
def mark_processed {W : Type} (s : ProcessorState W) (delivery_id : String)
    (now : ℕ) (error : Option String) : ProcessorState W :=
  { s with deliveries := (updateDelivery s.deliveries delivery_id
      (fun row => { row with processed := true, processedAt := some now,
                             lastError := error })) }

/-- `WebhookProcessor.process_webhook(delivery_id, event_type, payload)`.

`handlers` models `get_handler(event_type, db)`; a handler acts on the
world and may raise (`Except.error`).  `now` stands for
`datetime.utcnow()`.  Control flow mirrors the source exactly: an existing
delivery already marked processed short-circuits with `already_processed`
before any write; otherwise the delivery row is created if absent, the
handler (if any) is dispatched, and the row is marked processed on success
or its failure count updated on a handler exception. -/
def process_webhook {W : Type}
    (handlers : String → Option (WebhookPayload → W → Except String W))
    (now : ℕ) (s : ProcessorState W)
    (delivery_id event_type : String) (payload : WebhookPayload) :
    WebhookResult × ProcessorState W :=
  let existing := s.deliveries.lookup delivery_id
  match existing with
  | some ex =>
    if ex.processed then (.already_processed delivery_id, s)
    else process_webhook_continue handlers now s delivery_id event_type payload true
  | none =>
    let action := payload.action
    let github_repo_id : Option ℤ :=
      match payload.repository with
      | some repo_data => repo_data.id
      | none => none
    let repositoryId : Option String :=
      match github_repo_id with
      | some gid => if gid = 0 then none else some (toString gid)
      | none => none
    let row : WebhookDeliveryRow :=
      { deliveryId := delivery_id, eventType := event_type, action := action,
        repositoryId := repositoryId, payload := payload, processed := false,
        processedAt := none, failureCount := 0, lastError := none }
    let s1 : ProcessorState W := { s with deliveries := s.deliveries ++ [(delivery_id, row)] }
    process_webhook_continue handlers now s1 delivery_id event_type payload false
where
  /-- The handler-dispatch tail of `process_webhook`, after the duplicate
  check and delivery-row creation.  `was_existing` records whether the row
  pre-existed this call (the source's `existing` local), which selects the
  increment-vs-set failure-count branch. -/
  process_webhook_continue
      (handlers : String → Option (WebhookPayload → W → Except String W))
      (now : ℕ) (s : ProcessorState W)
      (delivery_id event_type : String) (payload : WebhookPayload)
      (was_existing : Bool) : WebhookResult × ProcessorState W :=
    match handlers event_type with
    | none =>
        (.no_handler event_type,
         mark_processed s delivery_id now (some "No handler for event type"))
    | some handler =>
        match handler payload s.world with
        | .ok world2 =>
            (.processed delivery_id,
             mark_processed { s with world := world2 } delivery_id now none)
        | .error e =>
            let s2 :=
              if was_existing then
                { s with deliveries := (updateDelivery s.deliveries delivery_id
                    (fun row => { row with failureCount := row.failureCount + 1,
                                           lastError := some e })) }
              else
                { s with deliveries := (updateDelivery s.deliveries delivery_id
                    (fun row => { row with failureCount := 1,
                                           lastError := some e })) }
            (.failed e, s2)

/-! ## Rank calculator (backend/services/rank_calculator.py) -/

/-- A `user` row as read by the rank calculator. -/
structure RankUser where
  id : String
  totalPoints : ℤ
  createdAt : ℕ
  isDeleted : Bool
  isBanned : Bool
deriving DecidableEq

/-- One entry of the rank list `{user_id, rank, points}`. -/
structure RankEntry where
  user_id : String
  rank : ℕ
  points : ℤ
deriving DecidableEq

/-- The database ordering `[{totalPoints: desc}, {createdAt: asc}]` used by
`calculate_global_ranks`, as a boolean total preorder. -/
def rankUserLE (u v : RankUser) : Bool :=
  decide (v.totalPoints < u.totalPoints ∨
    (u.totalPoints = v.totalPoints ∧ u.createdAt ≤ v.createdAt))

/-- The users the global leaderboard query selects
(`where isDeleted false, isBanned false`), in database order. -/
def eligible_users (users : List RankUser) : List RankUser :=
  users.filter (fun u => !u.isDeleted && !u.isBanned)

/-- The eligible users sorted by points descending, creation time
ascending (the ordered DB query of `calculate_global_ranks`). -/
def global_sorted (users : List RankUser) : List RankUser :=
  (eligible_users users).mergeSort rankUserLE

/-- `RankCalculator.calculate_global_ranks()`: the ordered query modelled
by a stable sort of the user table, then ranks assigned `1, 2, …` in order. -/
def calculate_global_ranks (users : List RankUser) : List RankEntry :=
  (global_sorted users).enum.map
    (fun p => ⟨p.2.id, p.1 + 1, p.2.totalPoints⟩)

/-- A `pointtransaction` row as read by the monthly / project rank
calculations, with the joined columns they consult: the transaction's own
`createdAt`, the owning user's `createdAt`, and the PR's repository's
`projectId`. -/
structure RankTxn where
  userId : String
  points : ℤ
  createdAt : ℕ
  userCreatedAt : ℕ
  projectId : String
deriving DecidableEq

/-- One step of the aggregation loop of `calculate_monthly_ranks` /
`calculate_project_ranks`: a dict keyed by user id in insertion order,
entries `(user_id, points_so_far, user_created_at)`. -/
def addRankTxn (acc : List (String × ℤ × ℕ)) (t : RankTxn) :
    List (String × ℤ × ℕ) :=
  if acc.any (fun p => p.1 = t.userId) then
    acc.map (fun p => if p.1 = t.userId then (p.1, p.2.1 + t.points, p.2.2) else p)
  else
    acc ++ [(t.userId, t.points, t.userCreatedAt)]

/-- Python `sorted(user_points.items(), key=lambda x: (-x[1],
user_created_at[x[0]]))` as a boolean total preorder on aggregated
entries. -/
def rankEntryLE (e f : String × ℤ × ℕ) : Bool :=
  decide (f.2.1 < e.2.1 ∨ (e.2.1 = f.2.1 ∧ e.2.2 ≤ f.2.2))

/-- The `user_points` / `user_created_at` dicts of `calculate_monthly_ranks`
/ `calculate_project_ranks` after the aggregation loop, in insertion
order. -/
def aggregated_points (txns : List RankTxn) : List (String × ℤ × ℕ) :=
  txns.foldl addRankTxn []

/-- `sorted(user_points.items(), key=lambda x: (-x[1], created_at))`
(Python's `sorted` is a stable merge sort). -/
def aggregated_sorted (txns : List RankTxn) : List (String × ℤ × ℕ) :=
  (aggregated_points txns).mergeSort rankEntryLE

/-- The shared tail of the monthly / project rank calculations: aggregate
points per user over the selected transactions, sort, and assign ranks
`1, 2, …`. -/
def aggregate_ranks (txns : List RankTxn) : List RankEntry :=
  (aggregated_sorted txns).enum.map (fun p => ⟨p.2.1, p.1 + 1, p.2.2.1⟩)

/-- `RankCalculator.calculate_monthly_ranks(year, month)`: the period query
`createdAt gte start_date lt end_date` over the transaction table, then
aggregation and sorting.  `start_date`/`end_date` stand for
`datetime(year, month, 1)` and the first day of the following month. -/
def calculate_monthly_ranks (txns : List RankTxn) (start_date end_date : ℕ) :
    List RankEntry :=
  aggregate_ranks (txns.filter (fun t => start_date ≤ t.createdAt && t.createdAt < end_date))

/-- `RankCalculator.calculate_project_ranks(project_id)`: the query
restricted to transactions whose PR belongs to the project. -/
def calculate_project_ranks (txns : List RankTxn) (project_id : String) :
    List RankEntry :=
  aggregate_ranks (txns.filter (fun t => t.projectId = project_id))

/-! ## SHA-256 and HMAC-SHA256
(the `hashlib.sha256` / `hmac.new(..., hashlib.sha256)` primitives used by
`event_deduplicator.py` and `webhook_security.py`).  Bytes and 32-bit words
are `ℕ` with explicit reduction modulo `2^32`. -/

/-- Reduce to a 32-bit word. -/
def w32 (x : ℕ) : ℕ := x % 2 ^ 32

/-- 32-bit right rotation (argument assumed < 2^32). -/
def rotr32 (n x : ℕ) : ℕ := w32 ((x >>> n) ||| (x <<< (32 - n)))

/-- 32-bit bitwise complement. -/
def not32 (x : ℕ) : ℕ := 0xffffffff ^^^ x

/-- The SHA-256 round constants (FIPS 180-4 §4.2.2, here as decimals). -/
def sha256K : List ℕ :=
  [1116352408, 1899447441, 3049323471, 3921009573, 961987163,
   1508970993, 2453635748, 2870763221, 3624381080, 310598401,
   607225278, 1426881987, 1925078388, 2162078206, 2614888103,
   3248222580, 3835390401, 4022224774, 264347078, 604807628,
   770255983, 1249150122, 1555081692, 1996064986, 2554220882,
   2821834349, 2952996808, 3210313671, 3336571891, 3584528711,
   113926993, 338241895, 666307205, 773529912, 1294757372,
   1396182291, 1695183700, 1986661051, 2177026350, 2456956037,
   2730485921, 2820302411, 3259730800, 3345764771, 3516065817,
   3600352804, 4094571909, 275423344, 430227734, 506948616,
   659060556, 883997877, 958139571, 1322822218, 1537002063,
   1747873779, 1955562222, 2024104815, 2227730452, 2361852424,
   2428436474, 2756734187, 3204031479, 3329325298]

/-- The SHA-256 initial hash value (FIPS 180-4 §5.3.3, here as decimals). -/
def sha256H0 : List ℕ :=
  [1779033703, 3144134277, 1013904242, 2773480762,
   1359893119, 2600822924, 528734635, 1541459225]

/-- Message-schedule sigma functions. -/
def smallSigma0 (x : ℕ) : ℕ := rotr32 7 x ^^^ rotr32 18 x ^^^ (x >>> 3)

/-- Message-schedule sigma functions. -/
def smallSigma1 (x : ℕ) : ℕ := rotr32 17 x ^^^ rotr32 19 x ^^^ (x >>> 10)

/-- Compression sigma functions. -/
def bigSigma0 (x : ℕ) : ℕ := rotr32 2 x ^^^ rotr32 13 x ^^^ rotr32 22 x

/-- Compression sigma functions. -/
def bigSigma1 (x : ℕ) : ℕ := rotr32 6 x ^^^ rotr32 11 x ^^^ rotr32 25 x

/-- Extend a 16-word block to the 64-word message schedule. -/
def extendSchedule (ws : List ℕ) : List ℕ :=
  (List.range 48).foldl
    (fun acc _ =>
      let k := acc.length
      let next := w32 (acc.getD (k - 16) 0 + smallSigma0 (acc.getD (k - 15) 0) +
                       acc.getD (k - 7) 0 + smallSigma1 (acc.getD (k - 2) 0))
      acc ++ [next]) ws

/-- One SHA-256 compression round on the eight-word working state. -/
def sha256Round (st : List ℕ) (kw : ℕ × ℕ) : List ℕ :=
  match st with
  | [a, b, c, d, e, f, g, h] =>
    let t1 := w32 (h + bigSigma1 e + ((e &&& f) ^^^ (not32 e &&& g)) + kw.1 + kw.2)
    let t2 := w32 (bigSigma0 a + ((a &&& b) ^^^ (a &&& c) ^^^ (b &&& c)))
    [w32 (t1 + t2), a, b, c, w32 (d + t1), e, f, g]
  | other => other

/-- Compress one 16-word block into the running hash state. -/
def compressBlock (st : List ℕ) (block : List ℕ) : List ℕ :=
  let ws := extendSchedule block
  let st2 := (sha256K.zip ws).foldl sha256Round st
  (st.zip st2).map (fun p => w32 (p.1 + p.2))

/-- Big-endian bytes to 32-bit words. -/
def bytesToWords : List ℕ → List ℕ
  | b0 :: b1 :: b2 :: b3 :: rest =>
      ((b0 <<< 24) ||| (b1 <<< 16) ||| (b2 <<< 8) ||| b3) :: bytesToWords rest
  | _ => []

/-- Split a word list into 16-word blocks. -/
def chunkWords : List ℕ → List (List ℕ)
  | [] => []
  | wd :: rest => ((wd :: rest).take 16) :: chunkWords ((wd :: rest).drop 16)
  termination_by l => l.length
  decreasing_by simp [List.length_drop]; omega

/-- SHA-256 padding: `0x80`, zeros to 56 mod 64, 64-bit big-endian bit
length. -/
def sha256Pad (msg : List ℕ) : List ℕ :=
  let len := msg.length
  let padLen := (119 - len % 64) % 64
  let bitLen := len * 8
  msg ++ [0x80] ++ List.replicate padLen 0 ++
    [(bitLen >>> 56) &&& 0xff, (bitLen >>> 48) &&& 0xff, (bitLen >>> 40) &&& 0xff,
     (bitLen >>> 32) &&& 0xff, (bitLen >>> 24) &&& 0xff, (bitLen >>> 16) &&& 0xff,
     (bitLen >>> 8) &&& 0xff, bitLen &&& 0xff]

/-- The eight final hash words of SHA-256 over a byte string. -/
def sha256Words (msg : List ℕ) : List ℕ :=
  (chunkWords (bytesToWords (sha256Pad msg))).foldl compressBlock sha256H0

/-- A 32-bit word as four big-endian bytes. -/
def wordBytes (wd : ℕ) : List ℕ :=
  [(wd >>> 24) &&& 0xff, (wd >>> 16) &&& 0xff, (wd >>> 8) &&& 0xff, wd &&& 0xff]

/-- SHA-256 digest (32 bytes). -/
def sha256Bytes (msg : List ℕ) : List ℕ :=
  (sha256Words msg).foldr (fun wd acc => wordBytes wd ++ acc) []

/-- Lowercase hexadecimal digit. -/
def hexDigitChar (n : ℕ) : Char :=
  if n < 10 then Char.ofNat (48 + n) else Char.ofNat (87 + n)

/-- A byte as two lowercase hex characters. -/
def byteHex (b : ℕ) : List Char :=
  [hexDigitChar ((b >>> 4) &&& 0xf), hexDigitChar (b &&& 0xf)]

/-- Lowercase hex string of a byte list (`.hexdigest()`). -/
def bytesHex (bs : List ℕ) : String :=
  ⟨bs.foldr (fun b acc => byteHex b ++ acc) []⟩

/-- UTF-8 encoding of one character (`str.encode()`). -/
def utf8EncodeChar (c : Char) : List ℕ :=
  let n := c.toNat
  if n < 0x80 then [n]
  else if n < 0x800 then
    [0xc0 ||| (n >>> 6), 0x80 ||| (n &&& 0x3f)]
  else if n < 0x10000 then
    [0xe0 ||| (n >>> 12), 0x80 ||| ((n >>> 6) &&& 0x3f), 0x80 ||| (n &&& 0x3f)]
  else
    [0xf0 ||| (n >>> 18), 0x80 ||| ((n >>> 12) &&& 0x3f),
     0x80 ||| ((n >>> 6) &&& 0x3f), 0x80 ||| (n &&& 0x3f)]

/-- UTF-8 bytes of a string (`s.encode()`). -/
def strBytes (s : String) : List ℕ :=
  s.data.foldr (fun c acc => utf8EncodeChar c ++ acc) []

/-- `hashlib.sha256(s.encode()).hexdigest()`. -/
def sha256_hexdigest (s : String) : String := bytesHex (sha256Bytes (strBytes s))

/-- `hmac.new(key, msg, hashlib.sha256).digest()` (RFC 2104, block size
64). -/
def hmacSha256 (key msg : List ℕ) : List ℕ :=
  let k0 := if 64 < key.length then sha256Bytes key else key
  let kpad := k0 ++ List.replicate (64 - k0.length) 0
  let ipadded := kpad.map (fun b => b ^^^ 0x36)
  let opadded := kpad.map (fun b => b ^^^ 0x5c)
  sha256Bytes (opadded ++ sha256Bytes (ipadded ++ msg))

/-- `hmac.new(secret, payload, hashlib.sha256).hexdigest()` with a string
key and raw byte message. -/
def hmac_sha256_hexdigest (key : String) (msg : List ℕ) : String :=
  bytesHex (hmacSha256 (strBytes key) msg)

/-! ## Event fingerprints (backend/services/event_deduplicator.py) -/

/-- The decimal digit characters. -/
def digitChar : ℕ → Char
  | 0 => '0' | 1 => '1' | 2 => '2' | 3 => '3' | 4 => '4'
  | 5 => '5' | 6 => '6' | 7 => '7' | 8 => '8' | 9 => '9'
  | _ => '*'

/-- Decimal rendering of a natural number, most significant digit first. -/
def decChars (n : ℕ) : List Char :=
  if _h : n < 10 then [digitChar n]
  else decChars (n / 10) ++ [digitChar (n % 10)]
  decreasing_by exact Nat.div_lt_self (by omega) (by omega)

/-- Python `str(i)` for an `int`: decimal digits, `'-'`-prefixed when
negative. -/
def intChars (i : ℤ) : List Char :=
  if i < 0 then '-' :: decChars i.natAbs else decChars i.toNat

/-- Python `f"{pr_id}"`. -/
def str_of_int (i : ℤ) : String := ⟨intChars i⟩

/-- The pre-hash string of `EventDeduplicator.generate_fingerprint`:
`f"{delivery_id}:{event_type}:{action}:{pr_id}"`. -/
def fingerprint_data (delivery_id event_type action : String) (pr_id : ℤ) : String :=
  delivery_id ++ ":" ++ event_type ++ ":" ++ action ++ ":" ++ str_of_int pr_id

/-- `EventDeduplicator.generate_fingerprint(delivery_id, event_type,
action, pr_id)`:
`hashlib.sha256(fingerprint_data.encode()).hexdigest()[:64]` (the slice of
the 64-character hex digest). -/
def generate_fingerprint (delivery_id event_type action : String) (pr_id : ℤ) : String :=
  (sha256_hexdigest (fingerprint_data delivery_id event_type action pr_id)).take 64

/-- A string with no `':'` character, so it cannot forge the fingerprint's
field separator. -/
def colonFree (s : String) : Bool :=
  s.data.all (fun c => c ≠ ':')

/-- The numeric value of a decimal digit character. -/
def digitVal (c : Char) : ℕ := c.toNat - 48

/-- The numeric value of a most-significant-first decimal digit string. -/
def valOf (l : List Char) : ℕ :=
  l.foldl (fun acc c => 10 * acc + digitVal c) 0

/-- Split a character list at every `':'` (like `str.split(":")`): the
fingerprint's four fields are recovered exactly when none of them contains
the separator. -/
def splitColon : List Char → List (List Char)
  | [] => [[]]
  | c :: rest =>
      if c = ':' then [] :: splitColon rest
      else
        match splitColon rest with
        | [] => [[c]]
        | g :: gs => (c :: g) :: gs

/-! ## Webhook signature verification
(backend/integrations/github/webhook_security.py) -/

/-- Python `s.split("=", 1)[1]`: everything after the first `'='` (the
callers guarantee one is present). -/
def afterFirstEq : List Char → List Char
  | [] => []
  | c :: rest => if c = '=' then rest else afterFirstEq rest

/-- `signature_header.split("=", 1)[1]` at the string level. -/
def split_eq_tail (s : String) : String := ⟨afterFirstEq s.data⟩

/-- `verify_webhook_signature(payload, signature_header)`.  The shared
secret `settings.GITHUB_WEBHOOK_SECRET` is a parameter; the payload is the
raw request body (bytes).  A missing header (Python falsiness of the empty
string), a header without the `"sha256="` scheme, and a digest mismatch all
raise `WebhookVerificationError` (modelled as `Except.error`); the only
non-raising outcome is `True`. -/
def verify_webhook_signature (secret : String) (payload : List ℕ)
    (signature_header : String) : Except String Bool :=
  if signature_header = "" then .error "Missing signature header"
  else if ("sha256=".data.isPrefixOf signature_header.data) = false then
    .error "Invalid signature format"
  else
    let provided_signature := split_eq_tail signature_header
    let expected_signature := hmac_sha256_hexdigest secret payload
    if provided_signature = expected_signature then .ok true
    else .error "Signature verification failed"

/-! ## Theorems -/

/-- The transition table exactly as the specification (§4.2) and claim C3
state it, for comparison with the implementation's table. -/
def specTransitionTable : PRState → PRState → Bool
  | .OPEN, .UNDER_REVIEW => true
  | .OPEN, .CLOSED => true
  | .UNDER_REVIEW, .CHANGES_REQUESTED => true
  | .UNDER_REVIEW, .APPROVED => true
  | .UNDER_REVIEW, .CLOSED => true
  | .CHANGES_REQUESTED, .OPEN => true
  | .CHANGES_REQUESTED, .CLOSED => true
  | .APPROVED, .MERGED => true
  | .APPROVED, .CLOSED => true
  | .CLOSED, .OPEN => true
  | _, _ => false

/-- C3: `is_valid_transition` accepts every same-state pair; on distinct
states it accepts exactly the pairs of the specified transition table
(OPEN→{UNDER_REVIEW, CLOSED}, UNDER_REVIEW→{CHANGES_REQUESTED, APPROVED,
CLOSED}, CHANGES_REQUESTED→{OPEN, CLOSED}, APPROVED→{MERGED, CLOSED},
CLOSED→{OPEN}); in particular MERGED has no outbound transition to any
distinct state. -/
theorem is_valid_transition_matches_spec_table :
    (∀ s : PRState, is_valid_transition s.str s.str = true) ∧
    (∀ s t : PRState, s ≠ t →
      (is_valid_transition s.str t.str = true ↔ specTransitionTable s t = true)) ∧
    (∀ t : PRState, t ≠ .MERGED →
      is_valid_transition PRState.MERGED.str t.str = false) := by
  refine ⟨?_, ?_, ?_⟩ <;> decide

/-- Witness for C3 at concrete states: APPROVED→MERGED is accepted,
MERGED→OPEN is rejected. -/
theorem is_valid_transition_matches_spec_table_witness :
    is_valid_transition "APPROVED" "MERGED" = true ∧
    is_valid_transition "MERGED" "OPEN" = false :=
  ⟨(is_valid_transition_matches_spec_table.2.1 .APPROVED .MERGED (by decide)).mpr
      (by decide),
   is_valid_transition_matches_spec_table.2.2 .OPEN (by decide)⟩

/-- C10: transition validation is total over arbitrary state strings — if
either endpoint is not one of the six `PRState` names, `is_valid_transition`
returns `False` and `validate_transition` returns the failure pair with an
error message, instead of propagating the `ValueError`. -/
theorem transition_validation_total_on_unknown_states :
    ∀ (from_state to_state pr_id : String),
      PRState.ofString? from_state = none ∨ PRState.ofString? to_state = none →
      is_valid_transition from_state to_state = false ∧
      validate_transition from_state to_state pr_id =
        (false, some ("Invalid state transition: " ++ from_state ++ " → " ++ to_state)) := by
  intro from_state to_state pr_id h
  have hv : is_valid_transition from_state to_state = false := by
    unfold is_valid_transition
    rcases hf : PRState.ofString? from_state with _ | sf <;>
      rcases ht : PRState.ofString? to_state with _ | st <;> simp_all
  exact ⟨hv, by simp [validate_transition, hv]⟩

/-- Witness for C10 at a concrete unknown state string. -/
theorem transition_validation_total_on_unknown_states_witness :
    is_valid_transition "DRAFT" "OPEN" = false ∧
    validate_transition "DRAFT" "OPEN" "pr-1" =
      (false, some ("Invalid state transition: " ++ "DRAFT" ++ " → " ++ "OPEN")) :=
  transition_validation_total_on_unknown_states "DRAFT" "OPEN" "pr-1"
    (Or.inl (by decide))

/-- C6: the gaming-prevention cap zeroes the score once the trailing-period
points reach the cap (1000), otherwise caps it at the remaining allowance
`min score (cap − points_in_period)`; for a non-negative candidate score
the result lies between 0 and the input score, and the period total plus
the result never moves above `max total cap`. -/
theorem apply_gaming_prevention_cap :
    ∀ (period_txn_points : List ℤ) (score : ℤ),
      (1000 ≤ period_txn_points.sum →
        apply_gaming_prevention period_txn_points score = 0) ∧
      (period_txn_points.sum < 1000 →
        apply_gaming_prevention period_txn_points score =
          min score (1000 - period_txn_points.sum)) ∧
      (0 ≤ score →
        0 ≤ apply_gaming_prevention period_txn_points score ∧
        apply_gaming_prevention period_txn_points score ≤ score) ∧
      period_txn_points.sum + apply_gaming_prevention period_txn_points score ≤
        max period_txn_points.sum 1000 := by
  intro txns score
  simp only [apply_gaming_prevention]
  by_cases h : txns.sum ≥ 1000
  all_goals simp [h]
  all_goals omega

/-- Witness for C6: 400 points already earned leaves a 600-point
allowance, so a 50-point award passes through untouched and stays within
bounds. -/
theorem apply_gaming_prevention_cap_witness :
    apply_gaming_prevention [400] 50 = min 50 (1000 - 400) ∧
    0 ≤ apply_gaming_prevention [400] 50 :=
  ⟨(apply_gaming_prevention_cap [400] 50).2.1 (by decide),
   ((apply_gaming_prevention_cap [400] 50).2.2.1 (by decide)).1⟩

/-- Python `int()` is the identity on mathematical integers. -/
theorem pyInt_intCast (i : ℤ) : pyInt (i : ℚ) = i := by
  unfold pyInt
  split
  · simp
  · simp

/-- Clamped at zero, truncating `base·mult − pen` toward zero agrees with
flooring `base·mult` and then subtracting the integer penalty sum. -/
theorem max_pyInt_sub_int (q : ℚ) (p : ℤ) :
    max 0 (pyInt (q - (p : ℚ))) = max 0 (⌊q⌋ - p) := by
  unfold pyInt
  split
  · rename_i hneg
    have h1 : ⌈q - (p : ℚ)⌉ ≤ 0 := Int.ceil_le.mpr (by exact_mod_cast hneg.le)
    have h2 : ⌊q - (p : ℚ)⌋ = ⌊q⌋ - p := Int.floor_sub_int q p
    have h3 : ⌊q - (p : ℚ)⌋ ≤ 0 := by
      have h4 := (Int.floor_le (q - (p : ℚ))).trans_lt hneg
      exact_mod_cast h4.le
    omega
  · rw [Int.floor_sub_int]

/-- The source's `max(0, int(base·(1·m₁·m₂·m₃) − (p₁+p₂+p₃)))` in the
claim's floor form. -/
theorem final_score_formula_aux (b : ℤ) (m1 m2 m3 : ℚ) (p1 p2 p3 : ℕ) :
    max 0 (pyInt ((b : ℚ) * (1 * m1 * m2 * m3) -
        ((((p1 : ℤ) + (p2 : ℤ) + (p3 : ℤ) : ℤ)) : ℚ))) =
    max 0 (⌊(b : ℚ) * (m1 * m2 * m3)⌋ - ((p1 + p2 + p3 : ℕ) : ℤ)) := by
  have hq : ((b : ℚ) * (1 * m1 * m2 * m3) -
      ((((p1 : ℤ) + (p2 : ℤ) + (p3 : ℤ) : ℤ)) : ℚ)) =
      ((b : ℚ) * (m1 * m2 * m3) - (((p1 + p2 + p3 : ℕ) : ℤ) : ℚ)) := by
    push_cast
    ring
  rw [hq, max_pyInt_sub_int]

/-- C7 counterexample: a PR with `diffSize = 0` has a change magnitude
below the threshold 10, yet `detect_spam_pr` does not flag it — the guard
`if pr.diffSize and pr.diffSize < 10` treats `0` as falsy. -/
theorem detect_spam_pr_misses_zero_diff :
    (detect_spam_pr (some ⟨some 0, []⟩)).is_spam = false ∧ (0 : ℤ) < 10 := by
  constructor
  · rfl
  · decide

/-- C7 (amended): every PR whose `diffSize` is present, nonzero and below
10 is flagged as spam, and with the default rules the fixed spam penalty 20
enters the penalty sum whatever the base score: a reviewless PR with
`diffSize = 5` scores `max(0, base − 20)` for every event. -/
theorem small_diff_spam_penalty :
    (∀ (pr : PullRequest) (d : ℤ), pr.diffSize = some d → d ≠ 0 → d < 10 →
      (detect_spam_pr (some pr)).is_spam = true) ∧
    (∀ event : String, ∃ r : ScoreBreakdown,
      calculate_score (some ⟨some 5, []⟩) event none = .ok r ∧
      r.pen_spam = 20 ∧
      r.final_score = max 0 (get_base_score event default_rules - 20)) := by
  constructor
  · intro pr d h hne hlt
    simp only [detect_spam_pr, h]
    simp [hne, hlt]
  · intro event
    refine ⟨_, rfl, rfl, ?_⟩
    show max 0 (pyInt ((get_base_score event default_rules : ℚ) * (1 * 1 * 1 * 1) -
        (((20 : ℕ) + (0 : ℕ) + (0 : ℕ) : ℤ) : ℚ))) = _
    have h : ((get_base_score event default_rules : ℚ) * (1 * 1 * 1 * 1) -
        (((20 : ℕ) + (0 : ℕ) + (0 : ℕ) : ℤ) : ℚ)) =
        (((get_base_score event default_rules - 20 : ℤ) : ℚ)) := by
      push_cast
      ring
    rw [h, pyInt_intCast]

/-- Witness for C7 (amended) at a concrete PR with `diffSize = 5`. -/
theorem small_diff_spam_penalty_witness :
    (detect_spam_pr (some ⟨some 5, []⟩)).is_spam = true :=
  small_diff_spam_penalty.1 ⟨some 5, []⟩ 5 rfl (by decide) (by decide)

instance {ε α : Type} [DecidableEq ε] [DecidableEq α] : DecidableEq (Except ε α) :=
  fun a b =>
    match a, b with
    | .error x, .error y =>
        if h : x = y then .isTrue (by rw [h]) else .isFalse (by simp [h])
    | .ok x, .ok y =>
        if h : x = y then .isTrue (by rw [h]) else .isFalse (by simp [h])
    | .error _, .ok _ => .isFalse (by simp)
    | .ok _, .error _ => .isFalse (by simp)

/-- C4: every successful `calculate_score` result satisfies
`final = max(0, ⌊base · Π multipliers⌋ − Σ penalties)` (the multipliers
combined multiplicatively, the penalty naturals summed), and the scenario
holds: a merged PR with base 50, one rating-5 review (multiplier 3/2) and
no penalties scores 75. -/
theorem calculate_score_formula :
    (∀ (pr : Option PullRequest) (event : String)
        (rules : Option ScoringRules) (r : ScoreBreakdown),
      calculate_score pr event rules = .ok r →
      r.final_score = max 0
        (⌊(r.base_score : ℚ) *
            (r.mult_review_rating * r.mult_test_coverage * r.mult_documentation)⌋ -
          ((r.pen_spam + r.pen_low_value + r.pen_violation : ℕ) : ℤ))) ∧
    calculate_score (some ⟨some 150, [⟨some 5⟩]⟩) "merged" none =
      .ok ⟨50, 3/2, 1, 1, 0, 0, 0, 75, "merged", 1⟩ := by
  constructor
  · intro pr event rules r h
    match pr with
    | none => exact absurd h (by simp [calculate_score])
    | some pr =>
      simp only [calculate_score] at h
      rcases hm : calculate_multipliers pr (rules.getD default_rules) with e | ⟨m1, m2, m3⟩ <;>
        rw [hm] at h
      · exact absurd h (by simp)
      · simp only [Except.ok.injEq] at h
        subst h
        exact final_score_formula_aux _ _ _ _ _ _ _
  · have hm : calculate_multipliers ⟨some 150, [⟨some 5⟩]⟩ default_rules =
        .ok (3/2, 1, 1) := by
      norm_num [calculate_multipliers, get_review_rating_multiplier, closest_rating,
        default_rules, pyAbs, List.filterMap_cons, List.filterMap_nil, List.filter_cons,
        List.filter_nil, List.sum_cons, List.sum_nil, List.length_cons, List.length_nil,
        List.foldl_cons, List.foldl_nil]
    have hbase : get_base_score "merged" default_rules = 50 := rfl
    have hpen : calculate_penalties ⟨some 150, [⟨some 5⟩]⟩ default_rules = (0, 0, 0) := rfl
    simp only [calculate_score, Option.getD_none, hm, hbase, hpen]
    norm_num [pyInt]
    rfl

/-- Witness for C4: the scenario breakdown satisfies the scoring formula. -/
theorem calculate_score_formula_witness :
    (⟨50, 3/2, 1, 1, 0, 0, 0, 75, "merged", 1⟩ : ScoreBreakdown).final_score =
      max 0 (⌊((50 : ℤ) : ℚ) * ((3/2 : ℚ) * 1 * 1)⌋ -
        (((0 : ℕ) + (0 : ℕ) + (0 : ℕ) : ℕ) : ℤ)) :=
  calculate_score_formula.1 (some ⟨some 150, [⟨some 5⟩]⟩) "merged" none _
    calculate_score_formula.2

/-- C1: once a delivery is marked processed, `process_webhook` on the same
`deliveryId` returns the `already_processed` result and leaves the entire
state — delivery table, PR records, ledger, balances (the world `W`) —
unchanged, for every possible handler table; in particular no handler is
dispatched and no ledger write or PR state change can occur. -/
theorem process_webhook_idempotent_after_processed :
    ∀ {W : Type} (handlers : String → Option (WebhookPayload → W → Except String W))
      (now : ℕ) (s : ProcessorState W) (delivery_id event_type : String)
      (payload : WebhookPayload) (row : WebhookDeliveryRow),
      s.deliveries.lookup delivery_id = some row →
      row.processed = true →
      process_webhook handlers now s delivery_id event_type payload =
        (.already_processed delivery_id, s) := by
  intro W handlers now s delivery_id event_type payload row hlook hproc
  unfold process_webhook
  rw [hlook]
  simp [hproc]

/-- Witness for C1: a concrete already-processed delivery is short-circuited
even with a handler installed that would mutate the world. -/
theorem process_webhook_idempotent_after_processed_witness :
    process_webhook (W := ℕ) (fun _ => some (fun _ w => .ok (w + 1))) 9
      ⟨[("d1", ⟨"d1", "pull_request", some "closed", none, ⟨some "closed", none⟩,
          true, some 3, 0, none⟩)], 42⟩
      "d1" "pull_request" ⟨some "closed", none⟩ =
    (.already_processed "d1",
     ⟨[("d1", ⟨"d1", "pull_request", some "closed", none, ⟨some "closed", none⟩,
        true, some 3, 0, none⟩)], 42⟩) :=
  process_webhook_idempotent_after_processed _ 9 _ "d1" "pull_request" _ _ rfl rfl

/-- A successful balance update adds `delta` to the target user's cached
balance (the first matching row, which `lookup` also reads) and leaves
every other user's balance untouched. -/
theorem lookup_updateUserPoints :
    ∀ (us : List (String × ℤ)) (uid : String) (delta : ℤ) (us' : List (String × ℤ)),
      updateUserPoints us uid delta = some us' →
      ∀ t : String,
        us'.lookup t = if t = uid then (us.lookup t).map (· + delta) else us.lookup t := by
  intro us
  induction us with
  | nil => intro uid delta us' h; cases h
  | cons hd tl ih =>
    intro uid delta us' h t
    obtain ⟨u, v⟩ := hd
    by_cases hk : u = uid
    · subst hk
      simp only [updateUserPoints, if_pos rfl] at h
      cases h
      by_cases ht : t = u
      · subst ht
        simp [List.lookup]
      · simp [List.lookup, ht, beq_false_of_ne ht]
    · simp only [updateUserPoints, if_neg hk] at h
      rcases hrec : updateUserPoints tl uid delta with _ | tl2
      · rw [hrec] at h; cases h
      · rw [hrec] at h
        cases h
        have htl := ih uid delta tl2 hrec t
        by_cases ht : t = u
        · subst ht
          have hne : t ≠ uid := hk
          simp [List.lookup, if_neg hne, htl, hne]
        · simp [List.lookup, beq_false_of_ne ht, htl]

/-- One ledger operation keeps `verify_ledger_integrity` true for every
contributor: an award appends the transaction and moves the cached balance
by the same signed amount atomically, a reversal is an award of the negated
original amount, and a failed operation rolls back entirely. -/
theorem verify_ledger_integrity_step (s : LedgerState) (op : LedgerOp) (target : String)
    (h : verify_ledger_integrity s target = true) :
    verify_ledger_integrity (applyLedgerOp s op) target = true := by
  have haward : ∀ (uid prid : String) (pts : ℤ) (reason ttype : String),
      verify_ledger_integrity ((award_points s uid prid pts reason ttype).getD s) target
        = true := by
    intro uid prid pts reason ttype
    rcases hu : updateUserPoints s.users uid pts with _ | us2
    · simp [award_points, hu, h]
    · simp only [award_points, hu, Option.getD_some]
      unfold verify_ledger_integrity at h ⊢
      rw [lookup_updateUserPoints s.users uid pts us2 hu target]
      by_cases ht : target = uid
      · subst ht
        rcases hl : s.users.lookup target with _ | total
        · rw [hl] at h; cases h
        · rw [hl] at h
          simp only [if_pos rfl, hl, Option.map_some]
          simp only [decide_eq_true_eq] at h ⊢
          simp [List.filter_append, List.sum_append, h]
      · simp only [if_neg ht]
        rcases hl : s.users.lookup target with _ | total
        · rw [hl] at h; cases h
        · rw [hl] at h
          simp only [decide_eq_true_eq] at h ⊢
          have hne : decide (uid = target) = false :=
            decide_eq_false (fun he => ht he.symm)
          simp [List.filter_append, List.sum_append, hne, h]
  cases op with
  | award uid prid pts reason ttype => exact haward uid prid pts reason ttype
  | reversal uid prid origId reason =>
    simp only [applyLedgerOp, create_reversal]
    rcases ho : s.transactions.get? origId with _ | orig
    · simpa using h
    · exact haward uid prid (-orig.points) reason "REVERSAL"

/-- C2: starting from a state where a contributor's cached balance equals
the signed sum of their transactions, any finite sequence of `award_points`
and `create_reversal` operations preserves that equality —
`verify_ledger_integrity` stays true for that contributor. -/
theorem ledger_balance_invariant :
    ∀ (ops : List LedgerOp) (s : LedgerState) (target : String),
      verify_ledger_integrity s target = true →
      verify_ledger_integrity (applyLedgerOps s ops) target = true := by
  intro ops
  induction ops with
  | nil => intro s target h; exact h
  | cons op rest ih =>
    intro s target h
    exact ih _ _ (verify_ledger_integrity_step s op target h)

/-- Witness for C2: award 50 points to alice twice, then reverse the first
award; the ledger stays consistent for alice. -/
theorem ledger_balance_invariant_witness :
    verify_ledger_integrity
      (applyLedgerOps ⟨[], [("alice", 0), ("bob", 7)]⟩
        [.award "alice" "pr1" 50 "PR_MERGED" "AWARD",
         .award "alice" "pr2" 10 "PR_OPENED" "AWARD",
         .reversal "alice" "pr1" 0 "abuse detected"]) "alice" = true :=
  ledger_balance_invariant _ ⟨[], [("alice", 0), ("bob", 7)]⟩ "alice" (by decide)

/-- The ordered-query relation of the global leaderboard is transitive. -/
theorem rankUserLE_trans :
    ∀ a b c : RankUser, rankUserLE a b → rankUserLE b c → rankUserLE a c := by
  intro a b c hab hbc
  simp only [rankUserLE, decide_eq_true_eq] at hab hbc ⊢
  omega

/-- The ordered-query relation of the global leaderboard is total. -/
theorem rankUserLE_total :
    ∀ a b : RankUser, rankUserLE a b || rankUserLE b a := by
  intro a b
  simp only [rankUserLE, Bool.or_eq_true, decide_eq_true_eq]
  omega

/-- The sort key of the aggregated rank calculations is transitive. -/
theorem rankEntryLE_trans :
    ∀ a b c : String × ℤ × ℕ, rankEntryLE a b → rankEntryLE b c → rankEntryLE a c := by
  intro a b c hab hbc
  simp only [rankEntryLE, decide_eq_true_eq] at hab hbc ⊢
  omega

/-- The sort key of the aggregated rank calculations is total. -/
theorem rankEntryLE_total :
    ∀ a b : String × ℤ × ℕ, rankEntryLE a b || rankEntryLE b a := by
  intro a b
  simp only [rankEntryLE, Bool.or_eq_true, decide_eq_true_eq]
  omega

/-- Enumerating any list from `k` and taking `index + 1` yields the gapless
run `k+1, k+2, …` of its length. -/
theorem enumFrom_map_rank {α : Type} :
    ∀ (k : ℕ) (l : List α),
      (l.enumFrom k).map (fun p => p.1 + 1) = List.range' (k + 1) l.length := by
  intro k l
  induction l generalizing k with
  | nil => simp
  | cons a t ih =>
      simp only [List.enumFrom_cons, List.map_cons, List.length_cons, List.range'_succ]
      exact congrArg (List.cons (k + 1)) (ih (k + 1))

/-- C9: every rank calculation (global, monthly, per-project) sorts by
points descending with ties broken by ascending creation time, keeps
exactly the selected population (a permutation), assigns the ranks
`1..N` with no gaps and no shared values in sorted order, and is
deterministic (identical input yields an identical ordering). -/
theorem rank_calculations_deterministic_total_order :
    (∀ users : List RankUser,
      (global_sorted users).Pairwise (fun u v =>
        v.totalPoints < u.totalPoints ∨
          (u.totalPoints = v.totalPoints ∧ u.createdAt ≤ v.createdAt)) ∧
      (global_sorted users).Perm (eligible_users users) ∧
      (calculate_global_ranks users).map (fun e => e.rank) =
        List.range' 1 (global_sorted users).length ∧
      (calculate_global_ranks users).map (fun e => (e.user_id, e.points)) =
        (global_sorted users).map (fun u => (u.id, u.totalPoints))) ∧
    (∀ txns : List RankTxn,
      (aggregated_sorted txns).Pairwise (fun e f =>
        f.2.1 < e.2.1 ∨ (e.2.1 = f.2.1 ∧ e.2.2 ≤ f.2.2)) ∧
      (aggregated_sorted txns).Perm (aggregated_points txns) ∧
      (aggregate_ranks txns).map (fun e => e.rank) =
        List.range' 1 (aggregated_sorted txns).length ∧
      (aggregate_ranks txns).map (fun e => (e.user_id, e.points)) =
        (aggregated_sorted txns).map (fun p => (p.1, p.2.1))) ∧
    (∀ (txns : List RankTxn) (start_date end_date : ℕ),
      calculate_monthly_ranks txns start_date end_date =
        aggregate_ranks (txns.filter
          (fun t => start_date ≤ t.createdAt && t.createdAt < end_date))) ∧
    (∀ (txns : List RankTxn) (project_id : String),
      calculate_project_ranks txns project_id =
        aggregate_ranks (txns.filter (fun t => t.projectId = project_id))) ∧
    (∀ us1 us2 : List RankUser, us1 = us2 →
      calculate_global_ranks us1 = calculate_global_ranks us2) := by
  refine ⟨?_, ?_, fun _ _ _ => rfl, fun _ _ => rfl, fun _ _ h => h ▸ rfl⟩
  · intro users
    refine ⟨?_, List.mergeSort_perm _ _, ?_, ?_⟩
    · exact (List.sorted_mergeSort rankUserLE_trans rankUserLE_total
        (eligible_users users)).imp
        (fun h => by simpa [rankUserLE, decide_eq_true_eq] using h)
    · show ((global_sorted users).enum.map _).map _ = _
      rw [List.map_map]
      exact enumFrom_map_rank 0 (global_sorted users)
    · show ((global_sorted users).enum.map _).map _ = _
      rw [List.map_map]
      have := List.enumFrom_map_snd 0 (global_sorted users)
      calc ((global_sorted users).enumFrom 0).map
            ((fun e : RankEntry => (e.user_id, e.points)) ∘
              (fun p : ℕ × RankUser => (⟨p.2.id, p.1 + 1, p.2.totalPoints⟩ : RankEntry)))
          = ((global_sorted users).enumFrom 0).map
            ((fun u : RankUser => (u.id, u.totalPoints)) ∘ Prod.snd) := rfl
        _ = (((global_sorted users).enumFrom 0).map Prod.snd).map
            (fun u : RankUser => (u.id, u.totalPoints)) := by rw [List.map_map]
        _ = (global_sorted users).map (fun u => (u.id, u.totalPoints)) := by rw [this]
  · intro txns
    refine ⟨?_, List.mergeSort_perm _ _, ?_, ?_⟩
    · exact (List.sorted_mergeSort rankEntryLE_trans rankEntryLE_total
        (aggregated_points txns)).imp
        (fun h => by simpa [rankEntryLE, decide_eq_true_eq] using h)
    · show ((aggregated_sorted txns).enum.map _).map _ = _
      rw [List.map_map]
      exact enumFrom_map_rank 0 (aggregated_sorted txns)
    · show ((aggregated_sorted txns).enum.map _).map _ = _
      rw [List.map_map]
      have := List.enumFrom_map_snd 0 (aggregated_sorted txns)
      calc ((aggregated_sorted txns).enumFrom 0).map
            ((fun e : RankEntry => (e.user_id, e.points)) ∘
              (fun p : ℕ × (String × ℤ × ℕ) => (⟨p.2.1, p.1 + 1, p.2.2.1⟩ : RankEntry)))
          = ((aggregated_sorted txns).enumFrom 0).map
            ((fun q : String × ℤ × ℕ => (q.1, q.2.1)) ∘ Prod.snd) := rfl
        _ = (((aggregated_sorted txns).enumFrom 0).map Prod.snd).map
            (fun q : String × ℤ × ℕ => (q.1, q.2.1)) := by rw [List.map_map]
        _ = (aggregated_sorted txns).map (fun q => (q.1, q.2.1)) := by rw [this]

/-- Witness for C9 at a concrete population with a points tie: the
determinism conjunct applied at identical inputs, and the rank list of the
three-user population is exactly `1, 2, 3`. -/
theorem rank_calculations_deterministic_total_order_witness :
    calculate_global_ranks
        [⟨"u1", 10, 5, false, false⟩, ⟨"u2", 10, 3, false, false⟩,
         ⟨"u3", 20, 9, false, false⟩] =
      calculate_global_ranks
        [⟨"u1", 10, 5, false, false⟩, ⟨"u2", 10, 3, false, false⟩,
         ⟨"u3", 20, 9, false, false⟩] ∧
    (calculate_global_ranks
        [⟨"u1", 10, 5, false, false⟩, ⟨"u2", 10, 3, false, false⟩,
         ⟨"u3", 20, 9, false, false⟩]).map (fun e => e.rank) =
      List.range' 1 (global_sorted
        [⟨"u1", 10, 5, false, false⟩, ⟨"u2", 10, 3, false, false⟩,
         ⟨"u3", 20, 9, false, false⟩]).length :=
  ⟨rank_calculations_deterministic_total_order.2.2.2.2 _ _ rfl,
   (rank_calculations_deterministic_total_order.1 _).2.2.1⟩

/-- `split("=", 1)[1]` strips exactly the `"sha256="` scheme: the first
`'='` of the header is the scheme's. -/
theorem afterFirstEq_sha256_scheme (t : List Char) :
    afterFirstEq ('s' :: 'h' :: 'a' :: '2' :: '5' :: '6' :: '=' :: t) = t := by
  simp [afterFirstEq]

/-- A header of the form `"sha256=" ++ X` is never the empty string. -/
theorem sha256_append_ne_empty (X : String) : "sha256=" ++ X ≠ "" := by
  intro h
  have h2 := congrArg String.data h
  rw [String.data_append] at h2
  have h3 : ("sha256=".data : List Char) ≠ [] := by decide
  have h4 : "".data = ([] : List Char) := rfl
  rw [h4] at h2
  exact h3 (List.append_eq_nil.mp h2).1

/-- C8: `verify_webhook_signature` returns `True` exactly when the header
is `"sha256="` followed by the lowercase hex HMAC-SHA256 of the payload
under the secret; it never returns `False`; and on every other header —
absent, wrong scheme, digest mismatch — it raises
`WebhookVerificationError`, so a payload is never silently accepted. -/
theorem verify_webhook_signature_exact :
    ∀ (secret : String) (payload : List ℕ) (signature_header : String),
      (verify_webhook_signature secret payload signature_header = .ok true ↔
        signature_header = "sha256=" ++ hmac_sha256_hexdigest secret payload) ∧
      (∀ res : Bool,
        verify_webhook_signature secret payload signature_header = .ok res →
        res = true) ∧
      (signature_header ≠ "sha256=" ++ hmac_sha256_hexdigest secret payload →
        ∃ e, verify_webhook_signature secret payload signature_header = .error e) := by
  intro secret payload header
  by_cases h0 : header = ""
  · subst h0
    refine ⟨⟨fun h => ?_, fun h => ?_⟩, fun res h => ?_, fun _ => ?_⟩
    · simp [verify_webhook_signature] at h
    · exact absurd h.symm (sha256_append_ne_empty _)
    · simp [verify_webhook_signature] at h
    · exact ⟨"Missing signature header", by simp [verify_webhook_signature]⟩
  · by_cases h1 : ("sha256=".data.isPrefixOf header.data) = true
    · obtain ⟨t, ht⟩ := List.isPrefixOf_iff_prefix.mp h1
      have hdata : header.data = "sha256=".data ++ t := ht.symm
      have hheader : header = "sha256=" ++ String.mk t :=
        String.ext (by rw [hdata, String.data_append])
      have htail : split_eq_tail header = String.mk t := by
        unfold split_eq_tail
        rw [hdata]
        exact congrArg String.mk (afterFirstEq_sha256_scheme t)
      by_cases h2 : split_eq_tail header = hmac_sha256_hexdigest secret payload
      · have hverify : verify_webhook_signature secret payload header = .ok true := by
          simp [verify_webhook_signature, h0, h1, h2]
        have hhX : header = "sha256=" ++ hmac_sha256_hexdigest secret payload := by
          rw [hheader, ← h2, htail]
        exact ⟨⟨fun _ => hhX, fun _ => hverify⟩,
               fun res h => (Except.ok.inj (hverify.symm.trans h)).symm,
               fun hne => (hne hhX).elim⟩
      · have hverify : verify_webhook_signature secret payload header =
            .error "Signature verification failed" := by
          simp [verify_webhook_signature, h0, h1, h2]
        have hne : header ≠ "sha256=" ++ hmac_sha256_hexdigest secret payload := by
          intro he
          apply h2
          rw [he]
          unfold split_eq_tail
          rw [String.data_append]
          calc (⟨afterFirstEq ("sha256=".data ++
                (hmac_sha256_hexdigest secret payload).data)⟩ : String)
              = ⟨(hmac_sha256_hexdigest secret payload).data⟩ :=
                congrArg String.mk (afterFirstEq_sha256_scheme _)
            _ = hmac_sha256_hexdigest secret payload := rfl
        refine ⟨⟨fun h => ?_, fun h => (hne h).elim⟩, fun res h => ?_, fun _ => ⟨_, hverify⟩⟩
        · rw [hverify] at h; cases h
        · rw [hverify] at h; cases h
    · have h1f : ("sha256=".data.isPrefixOf header.data) = false :=
        Bool.not_eq_true _ ▸ h1
      have hverify : verify_webhook_signature secret payload header =
          .error "Invalid signature format" := by
        simp [verify_webhook_signature, h0, h1f]
      have hne : header ≠ "sha256=" ++ hmac_sha256_hexdigest secret payload := by
        intro he
        apply h1
        rw [he, String.data_append]
        exact List.isPrefixOf_iff_prefix.mpr ⟨(hmac_sha256_hexdigest secret payload).data, rfl⟩
      refine ⟨⟨fun h => ?_, fun h => (hne h).elim⟩, fun res h => ?_, fun _ => ⟨_, hverify⟩⟩
      · rw [hverify] at h; cases h
      · rw [hverify] at h; cases h

/-- Witness for C8: a header carrying exactly the expected HMAC digest is
accepted. -/
theorem verify_webhook_signature_exact_witness :
    verify_webhook_signature "topsecret" [1, 2, 3]
      ("sha256=" ++ hmac_sha256_hexdigest "topsecret" [1, 2, 3]) = .ok true :=
  (verify_webhook_signature_exact "topsecret" [1, 2, 3] _).1.mpr rfl

/-- Digit characters decode to their value. -/
theorem digitVal_digitChar : ∀ d : ℕ, d < 10 → digitVal (digitChar d) = d := by
  intro d h
  interval_cases d <;> decide

/-- Digit characters lie in the `'0'..'9'` range. -/
theorem digitChar_isDigit : ∀ d : ℕ, d < 10 → '0' ≤ digitChar d ∧ digitChar d ≤ '9' := by
  intro d h
  interval_cases d <;> decide

/-- Appending one digit multiplies the decoded value by ten. -/
theorem valOf_append_digit (l : List Char) (c : Char) :
    valOf (l ++ [c]) = 10 * valOf l + digitVal c := by
  unfold valOf
  rw [List.foldl_append]
  rfl

/-- Decimal rendering round-trips through decoding: `valOf` is a left
inverse of `decChars`. -/
theorem valOf_decChars : ∀ n : ℕ, valOf (decChars n) = n := by
  intro n
  induction n using Nat.strong_induction_on with
  | _ n ih =>
    rw [decChars]
    split
    · rename_i h
      unfold valOf
      simp [digitVal_digitChar n h]
    · rename_i h
      rw [valOf_append_digit, ih (n / 10) (Nat.div_lt_self (by omega) (by omega)),
          digitVal_digitChar _ (Nat.mod_lt n (by omega))]
      omega

/-- Decimal rendering of naturals is injective. -/
theorem decChars_inj (m n : ℕ) (h : decChars m = decChars n) : m = n := by
  rw [← valOf_decChars m, ← valOf_decChars n, h]

/-- Every character of a decimal rendering is a digit. -/
theorem decChars_mem_digit : ∀ (n : ℕ), ∀ c ∈ decChars n, '0' ≤ c ∧ c ≤ '9' := by
  intro n
  induction n using Nat.strong_induction_on with
  | _ n ih =>
    intro c hc
    rw [decChars] at hc
    split at hc
    · rename_i h
      rw [List.mem_singleton] at hc
      exact hc ▸ digitChar_isDigit n h
    · rename_i h
      rcases List.mem_append.mp hc with hc1 | hc2
      · exact ih (n / 10) (Nat.div_lt_self (by omega) (by omega)) c hc1
      · rw [List.mem_singleton] at hc2
        exact hc2 ▸ digitChar_isDigit _ (Nat.mod_lt n (by omega))

/-- A character in the `'0'..'9'` range is not `':'` and not `'-'`. -/
theorem digit_ne_colon_minus (c : Char) (h : '0' ≤ c ∧ c ≤ '9') : c ≠ ':' ∧ c ≠ '-' := by
  constructor
  · intro he; subst he; exact absurd h.2 (by decide)
  · intro he; subst he; exact absurd h.1 (by decide)

/-- The Python rendering of an `int` never contains the fingerprint
separator `':'`. -/
theorem intChars_colonFree : ∀ (i : ℤ), ∀ c ∈ intChars i, c ≠ ':' := by
  intro i c hc
  unfold intChars at hc
  split at hc
  · rcases List.mem_cons.mp hc with hc1 | hc2
    · subst hc1; decide
    · exact (digit_ne_colon_minus c (decChars_mem_digit _ c hc2)).1
  · exact (digit_ne_colon_minus c (decChars_mem_digit _ c hc)).1

/-- The Python rendering of an `int` is injective: sign prefix plus
injective digit rendering. -/
theorem intChars_inj : ∀ i j : ℤ, intChars i = intChars j → i = j := by
  intro i j h
  unfold intChars at h
  split at h <;> split at h
  · rename_i hi hj
    have := decChars_inj _ _ (List.cons.inj h).2
    omega
  · rename_i hi hj
    have hmem : '-' ∈ decChars j.toNat := h ▸ List.mem_cons_self '-' _
    exact absurd (decChars_mem_digit _ '-' hmem).1 (by decide)
  · rename_i hi hj
    have hmem : '-' ∈ decChars i.toNat := h.symm ▸ List.mem_cons_self '-' _
    exact absurd (decChars_mem_digit _ '-' hmem).1 (by decide)
  · rename_i hi hj
    have := decChars_inj _ _ h
    omega

/-- Splitting at the first separator after a colon-free field recovers the
field. -/
theorem splitColon_append (l r : List Char) (hl : ∀ c ∈ l, c ≠ ':') :
    splitColon (l ++ ':' :: r) = l :: splitColon r := by
  induction l with
  | nil => simp [splitColon]
  | cons c cl ih =>
      have hc : c ≠ ':' := hl c (List.mem_cons_self c cl)
      have ih' := ih (fun x hx => hl x (List.mem_cons_of_mem c hx))
      simp [splitColon, hc, ih']

/-- A colon-free list is a single field. -/
theorem splitColon_colonFree (l : List Char) (hl : ∀ c ∈ l, c ≠ ':') :
    splitColon l = [l] := by
  induction l with
  | nil => rfl
  | cons c cl ih =>
      have hc : c ≠ ':' := hl c (List.mem_cons_self c cl)
      have ih' := ih (fun x hx => hl x (List.mem_cons_of_mem c hx))
      simp [splitColon, hc, ih']

/-- The character data of the fingerprint's pre-hash string. -/
theorem fingerprint_data_data (d e a : String) (p : ℤ) :
    (fingerprint_data d e a p).data =
      d.data ++ ':' :: (e.data ++ ':' :: (a.data ++ ':' :: intChars p)) := by
  have hc : (":" : String).data = [':'] := rfl
  simp [fingerprint_data, str_of_int, String.data_append, hc]

/-- `colonFree` read as a membership property. -/
theorem colonFree_spec (s : String) (hs : colonFree s = true) :
    ∀ c ∈ s.data, c ≠ ':' := by
  intro c hc
  have := List.all_eq_true.mp hs c hc
  simpa using this

/-- Colon-free fields are recovered exactly from the fingerprint data, so
the pre-hash string determines the whole event tuple. -/
theorem fingerprint_data_inj (d1 e1 a1 : String) (p1 : ℤ) (d2 e2 a2 : String) (p2 : ℤ)
    (hd1 : colonFree d1 = true) (he1 : colonFree e1 = true) (ha1 : colonFree a1 = true)
    (hd2 : colonFree d2 = true) (he2 : colonFree e2 = true) (ha2 : colonFree a2 = true)
    (h : fingerprint_data d1 e1 a1 p1 = fingerprint_data d2 e2 a2 p2) :
    d1 = d2 ∧ e1 = e2 ∧ a1 = a2 ∧ p1 = p2 := by
  have hd := congrArg String.data h
  rw [fingerprint_data_data, fingerprint_data_data] at hd
  have hs := congrArg splitColon hd
  rw [splitColon_append _ _ (colonFree_spec d1 hd1),
      splitColon_append _ _ (colonFree_spec e1 he1),
      splitColon_append _ _ (colonFree_spec a1 ha1),
      splitColon_colonFree _ (intChars_colonFree p1),
      splitColon_append _ _ (colonFree_spec d2 hd2),
      splitColon_append _ _ (colonFree_spec e2 he2),
      splitColon_append _ _ (colonFree_spec a2 ha2),
      splitColon_colonFree _ (intChars_colonFree p2)] at hs
  simp only [List.cons.injEq, and_true] at hs
  obtain ⟨h1, h2, h3, h4⟩ := hs
  exact ⟨String.ext h1, String.ext h2, String.ext h3, intChars_inj _ _ h4⟩

/-- C5 counterexample: two distinct logical event tuples whose fields smuggle
the `':'` separator produce the same pre-hash string, hence the same token —
no SHA-256 collision involved. -/
theorem generate_fingerprint_colon_collision :
    ("a:b", "c", "d", (1 : ℤ)) ≠ ("a", "b:c", "d", (1 : ℤ)) ∧
    generate_fingerprint "a:b" "c" "d" 1 = generate_fingerprint "a" "b:c" "d" 1 := by
  constructor
  · decide
  · have h : fingerprint_data "a:b" "c" "d" 1 = fingerprint_data "a" "b:c" "d" 1 := by
      apply String.ext
      rw [fingerprint_data_data, fingerprint_data_data]
      simp [intChars, decChars]
    show (sha256_hexdigest (fingerprint_data "a:b" "c" "d" 1)).take 64 = _
    rw [h]
    rfl

/-- C5 (amended): `generate_fingerprint` is a pure deterministic function of
the event tuple, and on tuples whose string fields are `':'`-free, distinct
tuples always produce distinct pre-hash strings — so equal tokens for two
such distinct tuples would exhibit a SHA-256 collision on distinct inputs.
(With a `':'` inside a field the counterexample above shows collisions
without any SHA-256 collision.) -/
theorem generate_fingerprint_deterministic_and_injective :
    (∀ (d1 e1 a1 : String) (p1 : ℤ) (d2 e2 a2 : String) (p2 : ℤ),
      (d1, e1, a1, p1) = (d2, e2, a2, p2) →
      generate_fingerprint d1 e1 a1 p1 = generate_fingerprint d2 e2 a2 p2) ∧
    (∀ (d1 e1 a1 : String) (p1 : ℤ) (d2 e2 a2 : String) (p2 : ℤ),
      colonFree d1 = true → colonFree e1 = true → colonFree a1 = true →
      colonFree d2 = true → colonFree e2 = true → colonFree a2 = true →
      (d1, e1, a1, p1) ≠ (d2, e2, a2, p2) →
      fingerprint_data d1 e1 a1 p1 ≠ fingerprint_data d2 e2 a2 p2 ∧
      (generate_fingerprint d1 e1 a1 p1 = generate_fingerprint d2 e2 a2 p2 →
        ∃ s1 s2 : String, s1 ≠ s2 ∧
          (sha256_hexdigest s1).take 64 = (sha256_hexdigest s2).take 64)) := by
  constructor
  · intro d1 e1 a1 p1 d2 e2 a2 p2 h
    simp only [Prod.mk.injEq] at h
    obtain ⟨hd, he, ha, hp⟩ := h
    rw [hd, he, ha, hp]
  · intro d1 e1 a1 p1 d2 e2 a2 p2 hd1 he1 ha1 hd2 he2 ha2 hne
    have hdatane : fingerprint_data d1 e1 a1 p1 ≠ fingerprint_data d2 e2 a2 p2 := by
      intro h
      obtain ⟨h1, h2, h3, h4⟩ :=
        fingerprint_data_inj d1 e1 a1 p1 d2 e2 a2 p2 hd1 he1 ha1 hd2 he2 ha2 h
      exact hne (by rw [h1, h2, h3, h4])
    exact ⟨hdatane, fun htok => ⟨_, _, hdatane, htok⟩⟩

/-- Witness for C5 (amended) at concrete colon-free tuples differing only in
the PR id. -/
theorem generate_fingerprint_deterministic_and_injective_witness :
    fingerprint_data "deliv-1" "pull_request" "opened" 1 ≠
      fingerprint_data "deliv-1" "pull_request" "opened" 2 :=
  (generate_fingerprint_deterministic_and_injective.2 "deliv-1" "pull_request" "opened" 1
    "deliv-1" "pull_request" "opened" 2 (by decide) (by decide) (by decide) (by decide)
    (by decide) (by decide) (by decide)).1

end OpenSource
